import Mathlib

/-
  Verification of the task-dispatch core of `src/simple-git.ts`.

  The file shallowly embeds the `SimpleGit` class: the Task Queue Executor
  (`SimpleGit.process`, source lines 51-92), the Chain Sequencer
  (`SimpleGit.processChain`, lines 102-118), the active-queue bookkeeping
  (`SimpleGit.onQueueComplete`, lines 120-125) and the public dispatch
  surface (`clone`, `mirror`, `status`, `stash`, `stashList`, lines 130-208
  plus the helpers `firstResult` and `isAsyncHandler`, lines 217-223).

  JavaScript promises and the `async` package's bounded-concurrency queue are
  embedded as follows: a Runner call is a pure function from the task's
  command and options to `Except Err Value`; the nondeterministic order in
  which the queue's in-flight Runner calls settle is an explicit `order`
  parameter (the list of task indices in completion order); a promise's
  settlement is an `Except Err Value`.  The chain of promise continuations
  built by `processChain` is sequential composition (each continuation
  returns the promise of its step, so the next `.then` waits for it), and a
  rejected chain promise skips every later continuation, which is modelled by
  the `Option Err` "broken" state threaded through `chainExecAux`.
-/

namespace GitJS

/-- Errors carried by rejected promises / thrown exceptions. -/
abbrev Err := String

/-- JavaScript values as far as the dispatch core manipulates them:
`undefined`, strings (raw runner output / parsed summaries) and arrays. -/
inductive Value where
  | undefined : Value
  | vstr : String → Value
  | varr : List Value → Value

/-- JS property access `v[i]` : indexing a non-array, or out of range,
gives `undefined`. -/
def jsIndex : Value → Nat → Value
  | .varr l, i => l.getD i .undefined
  | _, _ => .undefined

/-- A legacy completion callback `(error, result) -> void`.  A JS function
may throw when invoked, hence the `Except` result. -/
abbrev HandlerFn := Option Err → Option Value → Except Err Unit

/-- The Runner collaborator (`interfaces/command-runner`):
`runner.run(command, options)` returns raw output or fails. -/
abbrev RunnerFn := List String → Value → Except Err Value

/-- A Task (`interfaces/task`): command descriptor, options forwarded to the
Runner, optional output parser, optional legacy completion handler. -/
structure Task where
  command : List String
  options : Value
  parser : Option (Value → Value)
  handler : Option HandlerFn

/-- The narrowing of `Task` produced by the
`isAsyncHandler` type guard — the handler is known to be a function. -/
structure AsyncHandlerTask where
  command : List String
  options : Value
  parser : Option (Value → Value)
  handler : HandlerFn

/-- Forgetting the narrowing. -/
def AsyncHandlerTask.toTask (t : AsyncHandlerTask) : Task :=
  ⟨t.command, t.options, t.parser, some t.handler⟩

/-- The argument of `SimpleGit.process(tasks: Task)`: at runtime either a
single task or an array of tasks (the `async` queue's `push` accepts both). -/
inductive TaskArg where
  | one : Task → TaskArg
  | many : List Task → TaskArg

/-- What `q.push(tasks)` enqueues: an array enqueues its elements, a single
task enqueues itself. -/
def TaskArg.toList : TaskArg → List Task
  | .one t => [t]
  | .many ts => ts

/-- Modelled from the spec: `arrType` lives in the absent `util/arguments`
module (argument-shape helpers, out of scope per §1); it is the JS type tag
of arrays as produced by `Object.prototype.toString`. -/
def arrType : String := "[object Array]"

/-- Modelled from the spec: `varType` (absent `util/arguments` module)
returns the JS type tag of its argument, so `varType(x) === arrType` tests
whether `x` is an array.  This reading is forced by `firstResult`, which
applies the same test to the `results` accumulator (always an array) and
must take the `items[0]` branch there. -/
def varTypeArg : TaskArg → String
  | .one _ => "[object Object]"
  | .many _ => arrType

/-- The `varType` helper on plain values (the same absent helper, applied to the
results accumulator inside `firstResult`). -/
def varTypeVal : Value → String
  | .varr _ => arrType
  | .vstr _ => "[object String]"
  | .undefined => "[object Undefined]"

/-- Source line 53: `const resolveFirst = varType(tasks) === arrType`. -/
def resolveFirst (tasks : TaskArg) : Bool :=
  varTypeArg tasks == arrType

/-- Source lines 217-219:
`varType(items) === arrType ? items[0] : undefined`. -/
def firstResult (items : Value) : Value :=
  if varTypeVal items == arrType then jsIndex items 0 else .undefined

/-- Source line 61: the Runner invocation of one task. -/
def runTask (runner : RunnerFn) (t : Task) : Except Err Value :=
  runner t.command t.options

/-- Source lines 60-70, value pushed onto `results` when the task settles:
`task.parser ? task.parser(data) : data` on success, `undefined` on error. -/
def taskResult (runner : RunnerFn) (t : Task) : Value :=
  match runTask runner t with
  | .ok data =>
    match t.parser with
    | some p => p data
    | none => data
  | .error _ => .undefined

/-- Source lines 59-73, the `err` the worker hands to the queue callback:
`null` on success, the caught exception on failure. -/
def taskErr (runner : RunnerFn) (t : Task) : Option Err :=
  match runTask runner t with
  | .ok _ => none
  | .error e => some e

/-- The `results` accumulator once the queue has drained: one `push` per
task, in *completion* order (the `order` parameter). -/
def processResults (runner : RunnerFn) (ts : List Task) (order : List Nat) : List Value :=
  order.filterMap (fun i => (ts.get? i).map (taskResult runner))

/-- The first task-level error in completion order: the argument of the
first `q.error` firing, which settles the promise via `fail(err)`. -/
def processFirstErr (runner : RunnerFn) (ts : List Task) (order : List Nat) : Option Err :=
  order.findSome? (fun i => (ts.get? i).bind (taskErr runner))

/-- The Runner invocations made while the queue drains (every pushed task's
command is passed to `runner.run`; an error does not stop the queue). -/
def processCalls (_runner : RunnerFn) (ts : List Task) (order : List Nat) : List (List String) :=
  order.filterMap (fun i => (ts.get? i).map Task.command)

/-- Source lines 120-125: `onQueueComplete` removes the queue from
`this.queues` by `indexOf`/`splice` — remove the first occurrence, no-op
when absent.  `List.erase` is exactly this. -/
def onQueueComplete (queues : List Nat) (q : Nat) : List Nat :=
  queues.erase q

/-- The observable outcome of one `SimpleGit.process` submission. -/
structure ProcOutput where
  outcome : Except Err Value
  results : List Value
  calls : List (List String)
  queuesAfter : List Nat

/-- Source lines 51-92, `SimpleGit.process`.  `queues` is `this.queues`
before the submission and `qid` identifies the freshly created queue object
pushed at line 87.  `order` is the completion order of the Runner calls; the
configured concurrency only constrains which orders are reachable (see
`validOrder`).  On the first task error the promise is rejected
(`q.error`, line 82-85) and `onQueueComplete` runs; the queue still drains
afterwards, firing `onQueueComplete` a second time (a no-op) and a `ok(...)`
call that loses the race (the promise is already settled).  With no error
the drain (lines 77-80) resolves the promise with
`resolveFirst ? firstResult(results) : results`.  Pushing an empty array
fires the drain directly without running any worker (the `async` package
calls `drain` immediately when `push` receives zero tasks on an idle
queue). -/
def SimpleGit.process (runner : RunnerFn) (queues : List Nat) (qid : Nat)
    (tasks : TaskArg) (order : List Nat) : ProcOutput :=
  match processFirstErr runner tasks.toList order with
  | some e =>
    ⟨.error e, processResults runner tasks.toList order,
      processCalls runner tasks.toList order,
      onQueueComplete (onQueueComplete (queues ++ [qid]) qid) qid⟩
  | none =>
    ⟨.ok (if resolveFirst tasks
          then firstResult (.varr (processResults runner tasks.toList order))
          else .varr (processResults runner tasks.toList order)),
      processResults runner tasks.toList order,
      processCalls runner tasks.toList order,
      onQueueComplete (queues ++ [qid]) qid⟩

/-- Settlement of the promise returned by `process`, ignoring bookkeeping
(used by the Chain Sequencer, which consumes only the promise). -/
def processOutcome (runner : RunnerFn) (tasks : TaskArg) (order : List Nat) : Except Err Value :=
  (SimpleGit.process runner [] 0 tasks order).outcome

/-- A completion order reachable under concurrency limit `conc` for `m`
tasks: a permutation of `0..m-1` in which the `j`-th settling task had
already been started, i.e. its index is below `conc + j` (tasks start in
submission order, one more each time a worker frees up). -/
def validOrder (conc m : Nat) (order : List Nat) : Bool :=
  decide (order.Perm (List.range m)) &&
    (List.range order.length).all (fun j => order.getD j 0 < conc + j)

/-- Observable events of a Chain Sequencer execution: the Runner invocation
of step `k` begins / settles, and step `k`'s `handler` is invoked with the
given `(error, result)` arguments. -/
inductive Ev where
  | runStart : Nat → Ev
  | runEnd : Nat → Ev
  | handlerCall : Nat → Option Err → Option Value → Ev

/-- The step a chain event belongs to. -/
def evStep : Ev → Nat
  | .runStart k => k
  | .runEnd k => k
  | .handlerCall k _ _ => k

/-- Source lines 112-114, the handler phase of one chain continuation:
`.then(data => task.handler(null, data[0])).catch(err => task.handler(err))`.
On a fulfilled `process` promise the handler is invoked with
`(null, data[0])`; if that invocation throws, the `.catch` sees the thrown
value and invokes the handler again with it as the error argument.  On a
rejected `process` promise the handler is invoked once with the error.  A
throw out of the `.catch` callback rejects the continuation (second
component `some e`), which leaves `this.chain` a rejected promise. -/
def handlerPhase (k : Nat) (t : AsyncHandlerTask) (res : Except Err Value) :
    List Ev × Option Err :=
  match res with
  | .ok data =>
    match t.handler none (some (jsIndex data 0)) with
    | .ok _ => ([.handlerCall k none (some (jsIndex data 0))], none)
    | .error e1 =>
      match t.handler (some e1) none with
      | .ok _ =>
        ([.handlerCall k none (some (jsIndex data 0)),
          .handlerCall k (some e1) none], none)
      | .error e2 =>
        ([.handlerCall k none (some (jsIndex data 0)),
          .handlerCall k (some e1) none], some e2)
  | .error e =>
    match t.handler (some e) none with
    | .ok _ => ([.handlerCall k (some e) none], none)
    | .error e1 => ([.handlerCall k (some e) none], some e1)

/-- One continuation of the chain (source lines 105-115) when `this.chain`
is fulfilled: shift the pending task (which is this continuation's own
closure task, since continuations run in append order), submit it to the
executor as a single task (the only completion order of one task is `[0]`),
then run the handler phase on the resulting promise. -/
def chainStep (runner : RunnerFn) (k : Nat) (t : AsyncHandlerTask) :
    List Ev × Option Err :=
  let hp := handlerPhase k t (processOutcome runner (.one t.toTask) [0])
  (.runStart k :: .runEnd k :: hp.1, hp.2)

/-- Execution of the continuations appended for tasks `ts` (numbered from
`k`), given the state of `this.chain` (`none` fulfilled, `some e` rejected).
A continuation appended onto a *rejected* chain is skipped entirely — its
`.then` callback never runs, its task is never submitted, and the chain
stays rejected — because line 105 installs the callback with `.then` and no
rejection handler. -/
def chainExecAux (runner : RunnerFn) : Nat → List AsyncHandlerTask → Option Err →
    List Ev × Option Err
  | _, [], broken => ([], broken)
  | k, _ :: rest, some e => chainExecAux runner (k + 1) rest (some e)
  | k, t :: rest, none =>
    let s := chainStep runner k t
    let tail := chainExecAux runner (k + 1) rest s.2
    (s.1 ++ tail.1, tail.2)

/-- Source lines 102-118, `SimpleGit.processChain`, run to quiescence: the
Chained Tasks `ts` are appended in order onto the initially fulfilled chain
(`this.chain = Promise.resolve()`, line 42) and every installed continuation
is then driven to completion.  Returns the event trace and the final state
of `this.chain`. -/
def chainExec (runner : RunnerFn) (ts : List AsyncHandlerTask) : List Ev × Option Err :=
  chainExecAux runner 0 ts none

/-- What a public operation returns (source lines 146-150 and analogues):
a Task without handler is passed to the executor as `this.process(task)`
and the promise of results is returned; a Task with a handler is passed to
the sequencer and the `SimpleGit` instance itself is returned. -/
inductive Route where
  | toExecutor : TaskArg → Route
  | toSequencer : AsyncHandlerTask → Route

/-- Source lines 221-223: `typeof task.handler === 'function'`. -/
def isAsyncHandler (t : Task) : Bool :=
  t.handler.isSome

/-- The shared dispatch tail of every public operation (e.g. lines 146-150):
`if (!isAsyncHandler(task)) return this.process(task); return
this.processChain(task);` — the match on `handler` is the same type-guard
narrowing `Task` to `AsyncHandlerTask`. -/
def dispatch (t : Task) : Route :=
  match t.handler with
  | some h => .toSequencer ⟨t.command, t.options, t.parser, h⟩
  | none => .toExecutor (.one t)

/-- A raw JS argument of a public operation: a string, an array of strings,
an options object, or a callback function. -/
inductive JsArg where
  | str : String → JsArg
  | arr : List String → JsArg
  | obj : List (String × String) → JsArg
  | func : HandlerFn → JsArg

/-- Modelled from the spec: `trailingFunctionArgument` (absent
`util/arguments` module).  Per §6 each operation accepts a completion
callback in trailing position; this returns the last argument when it is a
function. -/
def trailingFunctionArgument (args : List JsArg) : Option HandlerFn :=
  match args.getLast? with
  | some (.func h) => some h
  | _ => none

/-- The arguments with a trailing callback removed. -/
def dropTrailingFunc (args : List JsArg) : List JsArg :=
  match args.getLast? with
  | some (.func _) => args.dropLast
  | _ => args

/-- Modelled from the spec: `trailingOptionsArgument` (absent
`util/arguments` module).  Per §6 an options object is accepted in trailing
position (possibly followed by the callback). -/
def trailingOptionsArgument (args : List JsArg) : Option (List (String × String)) :=
  match (dropTrailingFunc args).getLast? with
  | some (.obj o) => some o
  | _ => none

/-- The arguments with a trailing options object removed. -/
def dropTrailingObj (args : List JsArg) : List JsArg :=
  match args.getLast? with
  | some (.obj _) => args.dropLast
  | _ => args

/-- Modelled from the spec: `trailingArrayArgument` (absent `util/arguments`
module).  Per §6 an options array is accepted in trailing position (possibly
followed by the options object / callback); absent, it contributes no
commands. -/
def trailingArrayArgument (args : List JsArg) : List String :=
  match (dropTrailingObj (dropTrailingFunc args)).getLast? with
  | some (.arr a) => a
  | _ => []

/-- Modelled from the spec: rendering of an options object into command
arguments by the absent `util/command-builder` module (out of scope per §1:
argument-shape normalization). -/
def optionFlags (opts : Option (List (String × String))) : List String :=
  (opts.getD []).map (fun kv => kv.1 ++ "=" ++ kv.2)

/-- Source lines 131-138: `commands` starts as a copy of the trailing array
argument, then every *leading* string argument is appended (the loop breaks
at the first non-string argument). -/
def leadingStrings : List JsArg → List String
  | .str s :: rest => s :: leadingStrings rest
  | _ => []

/-- Modelled from the spec: the `clone` Task builder (absent
`commands/clone` module).  Per §6 builders are pure functions from the
normalized arguments to a Task; the handler is the trailing function
argument and `clone` output needs no parser. -/
def cloneTaskBuilder (commands : List String) (opts : Option (List (String × String)))
    (h : Option HandlerFn) : Task :=
  ⟨"clone" :: commands ++ optionFlags opts, .undefined, none, h⟩

/-- The Task built by `SimpleGit.clone` (source lines 130-144). -/
def cloneTaskOf (args : List JsArg) : Task :=
  cloneTaskBuilder (trailingArrayArgument args ++ leadingStrings args)
    (trailingOptionsArgument args) (trailingFunctionArgument args)

/-- Source lines 130-151, `SimpleGit.clone`: build the Task, then dispatch
on the presence of a handler. -/
def SimpleGit.clone (args : List JsArg) : Route :=
  dispatch (cloneTaskOf args)

/-- Source lines 156-158, `SimpleGit.mirror`:
`return this.clone(repoPath, localPath, ['--mirror'], ...args);`. -/
def SimpleGit.mirror (repoPath localPath : String) (args : List JsArg) : Route :=
  SimpleGit.clone (.str repoPath :: .str localPath :: .arr ["--mirror"] :: args)

/-- Modelled from the spec: the `status` result parser (absent
`responses/status-summary` module, out of scope per §1) as an uninterpreted
pure function from raw output to a summary value. -/
def statusSummaryParse (v : Value) : Value :=
  .varr [.vstr "status-summary", v]

/-- Modelled from the spec: the `status` Task builder (absent
`commands/status` module); it receives only the trailing function argument
(source lines 165-167) and carries the status parser. -/
def statusTaskBuilder (h : Option HandlerFn) : Task :=
  ⟨["status", "--porcelain"], .undefined, some statusSummaryParse, h⟩

/-- The Task built by `SimpleGit.status` (source lines 164-167). -/
def statusTaskOf (args : List JsArg) : Task :=
  statusTaskBuilder (trailingFunctionArgument args)

/-- Source lines 164-174, `SimpleGit.status`. -/
def SimpleGit.status (args : List JsArg) : Route :=
  dispatch (statusTaskOf args)

/-- Modelled from the spec: the `stash` Task builder (absent
`commands/stash` module), a pure function of the trailing array, options and
function arguments (source lines 197-201). -/
def stashTaskBuilder (commands : List String) (opts : Option (List (String × String)))
    (h : Option HandlerFn) : Task :=
  ⟨"stash" :: commands ++ optionFlags opts, .undefined, none, h⟩

/-- The Task built by `SimpleGit.stash` (source lines 197-201). -/
def stashTaskOf (args : List JsArg) : Task :=
  stashTaskBuilder (trailingArrayArgument args) (trailingOptionsArgument args)
    (trailingFunctionArgument args)

/-- Source lines 196-208, `SimpleGit.stash`. -/
def SimpleGit.stash (args : List JsArg) : Route :=
  dispatch (stashTaskOf args)

/-- Modelled from the spec: the `stash list` result parser (absent
`responses/list-log-summary` module) as an uninterpreted pure function. -/
def listLogSummaryParse (v : Value) : Value :=
  .varr [.vstr "list-log-summary", v]

/-- Modelled from the spec: the `stashList` Task builder (absent
`commands/stash-list` module), a pure function of the trailing array,
options and function arguments (source lines 180-184). -/
def stashListTaskBuilder (commands : List String) (opts : Option (List (String × String)))
    (h : Option HandlerFn) : Task :=
  ⟨"stash" :: "list" :: commands ++ optionFlags opts, .undefined, some listLogSummaryParse, h⟩

/-- The Task built by `SimpleGit.stashList` (source lines 180-184). -/
def stashListTaskOf (args : List JsArg) : Task :=
  stashListTaskBuilder (trailingArrayArgument args) (trailingOptionsArgument args)
    (trailingFunctionArgument args)

/-- Source lines 179-191, `SimpleGit.stashList`. -/
def SimpleGit.stashList (args : List JsArg) : Route :=
  dispatch (stashListTaskOf args)

/-- The routing contract claimed by the spec for one operation: a Task
carrying a handler goes to the Chain Sequencer and the Dispatcher itself is
returned; a Task without one goes to the Task Queue Executor and the Future
is returned. -/
def routesByHandler (route : Route) (t : Task) : Prop :=
  match t.handler with
  | some h => route = .toSequencer ⟨t.command, t.options, t.parser, h⟩
  | none => route = .toExecutor (.one t)

/-! ### Helper lemmas about the executor -/

theorem processFirstErr_eq_none (runner : RunnerFn) (ts : List Task) (order : List Nat)
    (h : ∀ j ∈ order, ∀ u, ts.get? j = some u → taskErr runner u = none) :
    processFirstErr runner ts order = none := by
  unfold processFirstErr
  rw [List.findSome?_eq_none_iff]
  intro j hj
  cases hget : ts.get? j with
  | none => rfl
  | some u => simp [hget, h j hj u hget]

theorem process_many_outcome_ok (runner : RunnerFn) (queues : List Nat) (qid : Nat)
    (ts : List Task) (order : List Nat)
    (hnone : processFirstErr runner ts order = none) :
    (SimpleGit.process runner queues qid (.many ts) order).outcome =
      .ok (firstResult (.varr (processResults runner ts order))) := by
  simp [SimpleGit.process, TaskArg.toList, hnone, resolveFirst, varTypeArg]

theorem process_many_head (runner : RunnerFn) (queues : List Nat) (qid : Nat)
    (ts : List Task) (order : List Nat) (i : Nat) (t : Task)
    (hok : ∀ u ∈ ts, taskErr runner u = none)
    (hhead : order.head? = some i) (hget : ts.get? i = some t) :
    (SimpleGit.process runner queues qid (.many ts) order).outcome =
      .ok (taskResult runner t) := by
  have hnone : processFirstErr runner ts order = none :=
    processFirstErr_eq_none runner ts order
      (fun j _ u hu => hok u (List.get?_mem hu))
  rw [process_many_outcome_ok runner queues qid ts order hnone]
  cases order with
  | nil => cases hhead
  | cons a tl =>
    obtain rfl : a = i := by simpa using hhead
    have hget' : ts[a]? = some t := by rw [← List.get?_eq_getElem?]; exact hget
    simp [processResults, List.filterMap_cons, hget', firstResult, varTypeVal, jsIndex]

/-! ### C7: empty Task Group -/

/-- C7: Submitting an empty Task Group to the Task Queue Executor resolves
the returned Future immediately with an empty/undefined result (here:
`undefined`, since the drain unwraps the empty accumulator through
`firstResult`), without invoking the Runner. -/
theorem claim7_empty_group (runner : RunnerFn) (queues : List Nat) (qid : Nat) :
    (SimpleGit.process runner queues qid (.many []) []).outcome = .ok .undefined ∧
    (SimpleGit.process runner queues qid (.many []) []).calls = [] :=
  ⟨rfl, rfl⟩

/-! ### C8: active-queue registry restored after settlement -/

/-- C8: every Task Group submission registers exactly one Running Queue in
`this.queues` and deregisters it on drain or error, so once the Future has
settled (either outcome, any task list, any completion order) the
active-queue list is restored to its pre-submission contents.  `qid ∉
queues` states that the queue object created by this submission is not
already registered (object identity guarantees this in JS). -/
theorem claim8_queue_registry (runner : RunnerFn) (queues : List Nat) (qid : Nat)
    (tasks : TaskArg) (order : List Nat) (hfresh : qid ∉ queues) :
    (SimpleGit.process runner queues qid tasks order).queuesAfter = queues := by
  have h1 : onQueueComplete (queues ++ [qid]) qid = queues := by
    unfold onQueueComplete
    rw [List.erase_append_right _ hfresh, List.erase_cons_head, List.append_nil]
  have h2 : onQueueComplete queues qid = queues := List.erase_of_not_mem hfresh
  rcases h : processFirstErr runner tasks.toList order with _ | e <;>
    simp [SimpleGit.process, h, h1, h2]

/-- C8 witness: a concrete settled submission (one succeeding, one failing
task, completion order `[1, 0]`) leaves the registry `[3, 5]` unchanged. -/
theorem claim8_witness :
    (7 : Nat) ∉ [3, 5] ∧
    (SimpleGit.process (fun cmd _ => if cmd = ["bad"] then .error "boom" else .ok (.vstr "ok"))
      [3, 5] 7 (.many [⟨["bad"], .undefined, none, none⟩, ⟨["good"], .undefined, none, none⟩])
      [1, 0]).queuesAfter = [3, 5] :=
  ⟨by decide,
    claim8_queue_registry
      (fun cmd _ => if cmd = ["bad"] then .error "boom" else .ok (.vstr "ok"))
      [3, 5] 7 (.many [⟨["bad"], .undefined, none, none⟩, ⟨["good"], .undefined, none, none⟩])
      [1, 0] (by decide)⟩

/-! ### C3: a failing task rejects the group's Future -/

/-- C3: for every Task Group in which some task's Runner invocation fails
(task `t` at index `i` of the completion order, every failing task carrying
the same error `e` — in particular when exactly one task fails), the Future
rejects with that error object and never resolves, so no partial-result
array reaches the caller. -/
theorem claim3_failure_rejects (runner : RunnerFn) (queues : List Nat) (qid : Nat)
    (ts : List Task) (order : List Nat) (i : Nat) (t : Task) (e : Err)
    (hi : i ∈ order) (ht : ts.get? i = some t) (he : taskErr runner t = some e)
    (huniq : ∀ j ∈ order, ∀ u, ts.get? j = some u → ∀ e2, taskErr runner u = some e2 → e2 = e) :
    (SimpleGit.process runner queues qid (.many ts) order).outcome = .error e ∧
    ∀ v, (SimpleGit.process runner queues qid (.many ts) order).outcome ≠ .ok v := by
  have hfind : processFirstErr runner ts order = some e := by
    unfold processFirstErr
    cases hfs : order.findSome? (fun j => (ts.get? j).bind (taskErr runner)) with
    | none =>
      rw [List.findSome?_eq_none_iff] at hfs
      have h3 := hfs i hi
      rw [ht] at h3
      have h2 : taskErr runner t = none := by simpa using h3
      rw [he] at h2
      cases h2
    | some e2 =>
      obtain ⟨j, hj, hfj⟩ := List.exists_of_findSome?_eq_some hfs
      obtain ⟨u, hu, hue⟩ := Option.bind_eq_some.mp hfj
      exact congrArg some (huniq j hj u hu e2 hue)
  refine ⟨?_, ?_⟩
  · simp [SimpleGit.process, TaskArg.toList, hfind]
  · intro v hv
    rw [show (SimpleGit.process runner queues qid (.many ts) order).outcome = .error e by
      simp [SimpleGit.process, TaskArg.toList, hfind]] at hv
    cases hv

/-- C3 witness: group `[ok-task, failing-task]`, completion order `[0, 1]`:
the Future rejects with `"boom"` and resolves with nothing. -/
theorem claim3_witness :
    (SimpleGit.process (fun cmd _ => if cmd = ["bad"] then .error "boom" else .ok (.vstr "ok"))
      [] 0 (.many [⟨["good"], .undefined, none, none⟩, ⟨["bad"], .undefined, none, none⟩])
      [0, 1]).outcome = .error "boom" ∧
    ∀ v, (SimpleGit.process (fun cmd _ => if cmd = ["bad"] then .error "boom" else .ok (.vstr "ok"))
      [] 0 (.many [⟨["good"], .undefined, none, none⟩, ⟨["bad"], .undefined, none, none⟩])
      [0, 1]).outcome ≠ .ok v :=
  claim3_failure_rejects
    (fun cmd _ => if cmd = ["bad"] then .error "boom" else .ok (.vstr "ok"))
    [] 0 [⟨["good"], .undefined, none, none⟩, ⟨["bad"], .undefined, none, none⟩]
    [0, 1] 1 ⟨["bad"], .undefined, none, none⟩ "boom"
    (by decide) rfl rfl
    (by
      intro j hj u hu e2 he2
      rcases List.mem_cons.mp hj with rfl | hj2
      · injection hu with hu'
        subst hu'
        cases he2
      · rcases List.mem_cons.mp hj2 with rfl | hj3
        · injection hu with hu'
          subst hu'
          injection he2 with he2'
          exact he2'.symm
        · cases hj3)

/-! ### C1: Task Group result placement -/

/-- The two-task group used to refute C1: both Runner calls succeed. -/
def c1Runner : RunnerFn :=
  fun cmd _ => if cmd = ["A"] then .ok (.vstr "a") else .ok (.vstr "b")

def c1TaskA : Task := ⟨["A"], .undefined, none, none⟩

def c1TaskB : Task := ⟨["B"], .undefined, none, none⟩

/-- C1 counterexample: submitting the group `[A, B]` (both Runner calls
succeeding, with results `"a"` and `"b"`) under the completion order
`[1, 0]` — reachable with concurrency `2` per `validOrder` — does *not*
resolve with the two results in submission order.  It resolves with the
bare result `"b"` of the task that completed first: `resolveFirst` (line 53)
is `true` exactly when `tasks` *is* an array, so a group is unwrapped
through `firstResult`, and the accumulator itself collected results in
completion order. -/
theorem claim1_counterexample :
    validOrder 2 2 [1, 0] = true ∧
    taskErr c1Runner c1TaskA = none ∧
    taskErr c1Runner c1TaskB = none ∧
    (SimpleGit.process c1Runner [] 0 (.many [c1TaskA, c1TaskB]) [1, 0]).outcome =
      .ok (.vstr "b") ∧
    (SimpleGit.process c1Runner [] 0 (.many [c1TaskA, c1TaskB]) [1, 0]).outcome ≠
      .ok (.varr [.vstr "a", .vstr "b"]) := by
  refine ⟨by decide, rfl, rfl, rfl, ?_⟩
  intro h
  have h0 : (SimpleGit.process c1Runner [] 0 (.many [c1TaskA, c1TaskB]) [1, 0]).outcome =
      .ok (.vstr "b") := rfl
  have h2 : Value.vstr "b" = Value.varr [.vstr "a", .vstr "b"] :=
    Except.ok.inj (h0.symm.trans h)
  cases h2

/-- C1 as amended: for every Task Group of `M` tasks with all Runner calls
succeeding and every completion order, the Future resolves with the result
of the task that *completed first* (parsed output when that task has a
parser, raw output otherwise) — not with the array of `M` results in
submission order. -/
theorem claim1_amended (runner : RunnerFn) (queues : List Nat) (qid : Nat)
    (ts : List Task) (order : List Nat) (i : Nat) (t : Task)
    (hok : ∀ u ∈ ts, taskErr runner u = none)
    (hhead : order.head? = some i) (hget : ts.get? i = some t) :
    (SimpleGit.process runner queues qid (.many ts) order).outcome =
      .ok (taskResult runner t) :=
  process_many_head runner queues qid ts order i t hok hhead hget

/-- C1 witness: the amended statement at the concrete group `[A, B]` with
completion order `[1, 0]`: the Future resolves with task B's result. -/
theorem claim1_witness :
    (∀ u ∈ [c1TaskA, c1TaskB], taskErr c1Runner u = none) ∧
    ([1, 0] : List Nat).head? = some 1 ∧
    [c1TaskA, c1TaskB].get? 1 = some c1TaskB ∧
    (SimpleGit.process c1Runner [] 0 (.many [c1TaskA, c1TaskB]) [1, 0]).outcome =
      .ok (taskResult c1Runner c1TaskB) := by
  have hok : ∀ u ∈ [c1TaskA, c1TaskB], taskErr c1Runner u = none := by
    intro u hu
    rcases List.mem_cons.mp hu with rfl | hu2
    · rfl
    · rcases List.mem_cons.mp hu2 with rfl | hu3
      · rfl
      · cases hu3
  exact ⟨hok, rfl, rfl,
    claim1_amended c1Runner [] 0 [c1TaskA, c1TaskB] [1, 0] 1 c1TaskB hok rfl rfl⟩

/-! ### C2: single-Task unwrapping -/

def c2Runner : RunnerFn := fun _ _ => .ok (.vstr "raw")

def c2Task : Task := ⟨["cmd"], .undefined, none, none⟩

/-- C2 counterexample: submitting the single Task (not wrapped in a
collection) whose Runner call succeeds with `"raw"` resolves the Future
with the one-element *array* `["raw"]`, not with the bare result `"raw"`:
for a non-array argument `resolveFirst` (line 53) is `false`, so the drain
resolves with the whole accumulator. -/
theorem claim2_counterexample :
    taskErr c2Runner c2Task = none ∧
    (SimpleGit.process c2Runner [] 0 (.one c2Task) [0]).outcome =
      .ok (.varr [.vstr "raw"]) ∧
    (SimpleGit.process c2Runner [] 0 (.one c2Task) [0]).outcome ≠ .ok (.vstr "raw") := by
  refine ⟨rfl, rfl, ?_⟩
  intro h
  have h0 : (SimpleGit.process c2Runner [] 0 (.one c2Task) [0]).outcome =
      .ok (.varr [.vstr "raw"]) := rfl
  have h2 : Value.varr [.vstr "raw"] = Value.vstr "raw" :=
    Except.ok.inj (h0.symm.trans h)
  cases h2

/-- C2 as amended: the unwrapping is inverted with respect to the claim.
A single Task submitted not wrapped in a collection resolves with the
one-element array holding its result; a Task Group submitted as a
collection resolves with the result of its first-completed task, not with
the full ordered array. -/
theorem claim2_amended (runner : RunnerFn) (queues : List Nat) (qid : Nat) :
    (∀ t : Task, taskErr runner t = none →
      (SimpleGit.process runner queues qid (.one t) [0]).outcome =
        .ok (.varr [taskResult runner t])) ∧
    (∀ (ts : List Task) (order : List Nat) (i : Nat) (t : Task),
      (∀ u ∈ ts, taskErr runner u = none) →
      order.head? = some i → ts.get? i = some t →
      (SimpleGit.process runner queues qid (.many ts) order).outcome =
        .ok (taskResult runner t)) := by
  constructor
  · intro t ht
    have hnone : processFirstErr runner [t] [0] = none := by
      unfold processFirstErr
      simp [ht]
    simp [SimpleGit.process, TaskArg.toList, hnone, resolveFirst, varTypeArg, arrType,
      processResults]
  · intro ts order i t hok hhead hget
    exact process_many_head runner queues qid ts order i t hok hhead hget

/-- C2 witness: the amended statement at a concrete single Task (Future
resolves with the one-element array) and at a concrete group (Future
resolves with the first-completed result). -/
theorem claim2_witness :
    taskErr c2Runner c2Task = none ∧
    (SimpleGit.process c2Runner [] 0 (.one c2Task) [0]).outcome =
      .ok (.varr [taskResult c2Runner c2Task]) ∧
    (SimpleGit.process c2Runner [] 0 (.many [c2Task]) [0]).outcome =
      .ok (taskResult c2Runner c2Task) := by
  refine ⟨rfl, (claim2_amended c2Runner [] 0).1 c2Task rfl, ?_⟩
  refine (claim2_amended c2Runner [] 0).2 [c2Task] [0] 0 c2Task ?_ rfl rfl
  intro u hu
  rcases List.mem_cons.mp hu with rfl | hu2
  · rfl
  · cases hu2

/-! ### Helper lemmas about the Chain Sequencer trace -/

theorem handlerPhase_events_step (k : Nat) (t : AsyncHandlerTask) (res : Except Err Value) :
    ∀ e ∈ (handlerPhase k t res).1, evStep e = k := by
  rcases res with e | d
  · rcases h1 : t.handler (some e) none with e1 | u <;>
      simp [handlerPhase, h1, evStep]
  · rcases h1 : t.handler none (some (jsIndex d 0)) with e1 | u
    · rcases h2 : t.handler (some e1) none with e2 | u <;>
        simp [handlerPhase, h1, h2, evStep]
    · simp [handlerPhase, h1, evStep]

theorem chainStep_events_step (runner : RunnerFn) (k : Nat) (t : AsyncHandlerTask) :
    ∀ e ∈ (chainStep runner k t).1, evStep e = k := by
  intro e he
  simp only [chainStep, List.mem_cons] at he
  rcases he with rfl | rfl | he
  · rfl
  · rfl
  · exact handlerPhase_events_step k t _ e he

theorem chainExecAux_events_ge (runner : RunnerFn) :
    ∀ (ts : List AsyncHandlerTask) (k : Nat) (b : Option Err),
      ∀ e ∈ (chainExecAux runner k ts b).1, k ≤ evStep e := by
  intro ts
  induction ts with
  | nil =>
    intro k b e he
    simp [chainExecAux] at he
  | cons t rest ih =>
    intro k b e he
    rcases b with _ | err
    · simp only [chainExecAux, List.mem_append] at he
      rcases he with he | he
      · exact (chainStep_events_step runner k t e he).ge
      · exact le_trans (Nat.le_succ k) (ih (k + 1) _ e he)
    · simp only [chainExecAux] at he
      exact le_trans (Nat.le_succ k) (ih (k + 1) _ e he)

theorem chainExecAux_pairwise (runner : RunnerFn) :
    ∀ (ts : List AsyncHandlerTask) (k : Nat) (b : Option Err),
      (chainExecAux runner k ts b).1.Pairwise (fun a b => evStep a ≤ evStep b) := by
  intro ts
  induction ts with
  | nil =>
    intro k b
    simp [chainExecAux]
  | cons t rest ih =>
    intro k b
    rcases b with _ | err
    · simp only [chainExecAux]
      refine List.pairwise_append.mpr ⟨?_, ih (k + 1) _, ?_⟩
      · refine List.pairwise_of_forall_mem_list ?_
        intro a ha b hb
        rw [chainStep_events_step runner k t a ha, chainStep_events_step runner k t b hb]
      · intro a ha b hb
        rw [chainStep_events_step runner k t a ha]
        exact le_trans (Nat.le_succ k) (chainExecAux_events_ge runner rest (k + 1) _ b hb)
    · simp only [chainExecAux]
      exact ih (k + 1) _

/-! ### C4: chained steps never overlap and run strictly in order -/

/-- C4: in every Chain Sequencer execution, an event of an earlier step
occurs strictly before every event of a later step; in particular the
Runner invocations of two Chained Tasks never overlap (step `k`'s
`runEnd` precedes step `k+1`'s `runStart`) and step `k`'s handler
invocation precedes step `k+1`'s Runner invocation.  No concurrency
parameter appears: the chain is sequential whatever the executor's
configured concurrency, which only constrains completion orders of
grouped direct submissions. -/
theorem claim4_chain_sequential (runner : RunnerFn) (ts : List AsyncHandlerTask)
    (i j : Nat) (a b : Ev)
    (ha : (chainExec runner ts).1.get? i = some a)
    (hb : (chainExec runner ts).1.get? j = some b)
    (hstep : evStep a < evStep b) : i < j := by
  have hp : (chainExec runner ts).1.Pairwise (fun a b => evStep a ≤ evStep b) :=
    chainExecAux_pairwise runner ts 0 none
  rcases lt_trichotomy i j with h | h | h
  · exact h
  · exfalso
    subst h
    rw [ha] at hb
    injection hb with hb'
    subst hb'
    exact lt_irrefl _ hstep
  · exfalso
    obtain ⟨hi, hgi⟩ := List.get?_eq_some.mp ha
    obtain ⟨hj, hgj⟩ := List.get?_eq_some.mp hb
    have hle := List.pairwise_iff_get.mp hp ⟨j, hj⟩ ⟨i, hi⟩ h
    rw [hgi, hgj] at hle
    exact absurd hstep (not_lt.mpr hle)

/-- Concrete chain for the C4 witness: two chained tasks with benign
handlers over an always-succeeding runner. -/
def c4Runner : RunnerFn := fun _ _ => .ok (.vstr "d")

def c4Task1 : AsyncHandlerTask := ⟨["c1"], .undefined, none, fun _ _ => .ok ()⟩

def c4Task2 : AsyncHandlerTask := ⟨["c2"], .undefined, none, fun _ _ => .ok ()⟩

/-- C4 witness: in the chain `[T1, T2]`, T1's handler invocation (trace
position 2) occurs before T2's Runner invocation starts (trace position 3). -/
theorem claim4_witness :
    (chainExec c4Runner [c4Task1, c4Task2]).1.get? 2 =
      some (.handlerCall 0 none (some (.vstr "d"))) ∧
    (chainExec c4Runner [c4Task1, c4Task2]).1.get? 3 = some (.runStart 1) ∧
    2 < 3 :=
  ⟨rfl, rfl,
    claim4_chain_sequential c4Runner [c4Task1, c4Task2] 2 3
      (.handlerCall 0 none (some (.vstr "d"))) (.runStart 1) rfl rfl (by decide)⟩

/-! ### C5: chain behaviour after a failing step -/

/-- Runner for the C5 counterexample: the task `["bad"]` fails. -/
def c5Runner : RunnerFn :=
  fun cmd _ => if cmd = ["bad"] then .error "boom" else .ok (.vstr "okv")

/-- First chained task: its Runner call fails, and its handler throws when
invoked with an error argument. -/
def c5Throwing : AsyncHandlerTask :=
  ⟨["bad"], .undefined, none,
    fun e _ => match e with | some _ => .error "handler-throw" | none => .ok ()⟩

/-- Second chained task: benign. -/
def c5Second : AsyncHandlerTask := ⟨["fine"], .undefined, none, fun _ _ => .ok ()⟩

/-- C5 counterexample: in the chain `[T1, T2]` where T1's Runner fails and
T1's handler throws on its error invocation, T2 is *not* run: the `.catch`
callback's throw leaves `this.chain` rejected, so T2's continuation (a bare
`.then`) never fires — no Runner invocation and no handler invocation of
step 1 appears in the trace, refuting "every step after k is still
individually submitted and run". -/
theorem claim5_counterexample :
    taskErr c5Runner c5Throwing.toTask = some "boom" ∧
    (chainExec c5Runner [c5Throwing, c5Second]).1 =
      [.runStart 0, .runEnd 0, .handlerCall 0 (some "boom") none] ∧
    (chainExec c5Runner [c5Throwing, c5Second]).2 = some "handler-throw" ∧
    Ev.runStart 1 ∉ (chainExec c5Runner [c5Throwing, c5Second]).1 ∧
    ∀ e r, Ev.handlerCall 1 e r ∉ (chainExec c5Runner [c5Throwing, c5Second]).1 := by
  refine ⟨rfl, rfl, rfl, ?_, ?_⟩
  · rw [show (chainExec c5Runner [c5Throwing, c5Second]).1 =
      [.runStart 0, .runEnd 0, .handlerCall 0 (some "boom") none] from rfl]
    simp
  · intro e r
    rw [show (chainExec c5Runner [c5Throwing, c5Second]).1 =
      [.runStart 0, .runEnd 0, .handlerCall 0 (some "boom") none] from rfl]
    simp

/-- The per-step trace the spec describes when no handler throws: the step's
Runner invocation followed by one handler invocation carrying that step's
own outcome (`(null, data[0])` on success, the step's own error on
failure). -/
def stepSpecTrace (runner : RunnerFn) (k : Nat) (t : AsyncHandlerTask) : List Ev :=
  match processOutcome runner (.one t.toTask) [0] with
  | .ok d => [.runStart k, .runEnd k, .handlerCall k none (some (jsIndex d 0))]
  | .error e => [.runStart k, .runEnd k, .handlerCall k (some e) none]

/-- The whole-chain trace the spec describes when no handler throws: every
step runs, in order, each with its own independent outcome. -/
def chainSpecTrace (runner : RunnerFn) : Nat → List AsyncHandlerTask → List Ev
  | _, [] => []
  | k, t :: rest => stepSpecTrace runner k t ++ chainSpecTrace runner (k + 1) rest

theorem chainStep_noThrow (runner : RunnerFn) (k : Nat) (t : AsyncHandlerTask)
    (ht : ∀ e r, t.handler e r = .ok ()) :
    chainStep runner k t = (stepSpecTrace runner k t, none) := by
  unfold chainStep handlerPhase stepSpecTrace
  rcases hres : processOutcome runner (.one t.toTask) [0] with e | d <;>
    simp [ht]

theorem chainExecAux_noThrow (runner : RunnerFn) :
    ∀ (ts : List AsyncHandlerTask) (k : Nat),
      (∀ t ∈ ts, ∀ e r, t.handler e r = .ok ()) →
      chainExecAux runner k ts none = (chainSpecTrace runner k ts, none) := by
  intro ts
  induction ts with
  | nil =>
    intro k _
    simp [chainExecAux, chainSpecTrace]
  | cons t rest ih =>
    intro k h
    have hstep : chainStep runner k t = (stepSpecTrace runner k t, none) :=
      chainStep_noThrow runner k t (h t (List.mem_cons_self t rest))
    have htail := ih (k + 1) (fun u hu => h u (List.mem_cons_of_mem _ hu))
    simp [chainExecAux, hstep, htail, chainSpecTrace]

theorem chainSpecTrace_runStart (runner : RunnerFn) :
    ∀ (ts : List AsyncHandlerTask) (k j : Nat), j < ts.length →
      Ev.runStart (k + j) ∈ chainSpecTrace runner k ts := by
  intro ts
  induction ts with
  | nil =>
    intro k j h
    cases h
  | cons t rest ih =>
    intro k j h
    cases j with
    | zero =>
      refine List.mem_append.mpr (Or.inl ?_)
      unfold stepSpecTrace
      rcases processOutcome runner (.one t.toTask) [0] with e | d <;> simp
    | succ j2 =>
      refine List.mem_append.mpr (Or.inr ?_)
      have := ih (k + 1) j2 (Nat.lt_of_succ_lt_succ h)
      have harith : k + 1 + j2 = k + (j2 + 1) := by omega
      rw [harith] at this
      exact this

/-- C5 as amended: *provided no handler throws*, when some step `k`'s
Runner invocation fails every step after `k` is still individually
submitted and run, each step's handler is invoked exactly once with that
step's own independent outcome (the failure of step `k` appearing only in
step `k`'s handler invocation), and the chain future stays fulfilled.
(The proviso is forced by `claim5_counterexample`: a handler that throws on
its error-path invocation rejects the chain future and every later step is
skipped.) -/
theorem claim5_amended (runner : RunnerFn) (ts : List AsyncHandlerTask)
    (hok : ∀ t ∈ ts, ∀ e r, t.handler e r = .ok ()) :
    chainExec runner ts = (chainSpecTrace runner 0 ts, none) ∧
    ∀ j, j < ts.length → Ev.runStart j ∈ (chainExec runner ts).1 := by
  have h : chainExec runner ts = (chainSpecTrace runner 0 ts, none) :=
    chainExecAux_noThrow runner ts 0 hok
  refine ⟨h, fun j hj => ?_⟩
  rw [show (chainExec runner ts).1 = chainSpecTrace runner 0 ts from congrArg Prod.fst h]
  have := chainSpecTrace_runStart runner ts 0 j hj
  simpa using this

/-- Concrete chain for the C5 witness: the first task's Runner fails, both
handlers are benign (never throw). -/
def c5TameFail : AsyncHandlerTask := ⟨["bad"], .undefined, none, fun _ _ => .ok ()⟩

def c5TameNext : AsyncHandlerTask := ⟨["fine"], .undefined, none, fun _ _ => .ok ()⟩

/-- C5 witness: with non-throwing handlers, after the failing step 0 the
step 1 still runs; the trace is the per-step spec trace and the chain stays
fulfilled. -/
theorem claim5_witness :
    (∀ t ∈ [c5TameFail, c5TameNext], ∀ e r, t.handler e r = .ok ()) ∧
    chainExec c5Runner [c5TameFail, c5TameNext] =
      (chainSpecTrace c5Runner 0 [c5TameFail, c5TameNext], none) ∧
    Ev.runStart 1 ∈ (chainExec c5Runner [c5TameFail, c5TameNext]).1 := by
  have hok : ∀ t ∈ [c5TameFail, c5TameNext], ∀ e r, t.handler e r = .ok () := by
    intro t ht e r
    rcases List.mem_cons.mp ht with rfl | ht2
    · rfl
    · rcases List.mem_cons.mp ht2 with rfl | ht3
      · rfl
      · cases ht3
  have h := claim5_amended c5Runner [c5TameFail, c5TameNext] hok
  exact ⟨hok, h.1, h.2 1 (by decide)⟩

/-! ### C10: a handler that throws on the success invocation -/

def c10Runner : RunnerFn := fun _ _ => .ok (.vstr "data")

/-- A task whose handler throws on *both* invocations. -/
def c10Both : AsyncHandlerTask := ⟨["c"], .undefined, none, fun _ _ => .error "always"⟩

/-- A benign next task. -/
def c10Next : AsyncHandlerTask := ⟨["n"], .undefined, none, fun _ _ => .ok ()⟩

/-- C10 counterexample: the Runner succeeds and the handler throws on the
success invocation; the handler *is* invoked a second time with the thrown
exception as the error argument (last trace event), but when that second
invocation throws as well the chain future is rejected and the next
appended step never runs — refuting "the chain still progresses to the
next appended step" as universally stated. -/
theorem claim10_counterexample :
    (chainExec c10Runner [c10Both, c10Next]).1 =
      [.runStart 0, .runEnd 0, .handlerCall 0 none (some (.vstr "data")),
        .handlerCall 0 (some "always") none] ∧
    (chainExec c10Runner [c10Both, c10Next]).2 = some "always" ∧
    Ev.runStart 1 ∉ (chainExec c10Runner [c10Both, c10Next]).1 := by
  refine ⟨rfl, rfl, ?_⟩
  rw [show (chainExec c10Runner [c10Both, c10Next]).1 =
    [.runStart 0, .runEnd 0, .handlerCall 0 none (some (.vstr "data")),
      .handlerCall 0 (some "always") none] from rfl]
  simp

/-- C10 as amended: for every Chained Task whose Runner invocation succeeds
but whose handler throws when invoked with the success result, the Chain
Sequencer invokes that same handler a second time with the thrown exception
as the error argument; *provided that second invocation returns normally*,
the chain then progresses to the appended next steps exactly as if the step
had completed (the remaining steps execute from an unbroken chain). -/
theorem claim10_amended (runner : RunnerFn) (t : AsyncHandlerTask)
    (rest : List AsyncHandlerTask) (d : Value) (e1 : Err)
    (hrun : processOutcome runner (.one t.toTask) [0] = .ok d)
    (hthrow : t.handler none (some (jsIndex d 0)) = .error e1)
    (hsecond : t.handler (some e1) none = .ok ()) :
    chainExec runner (t :: rest) =
      ([.runStart 0, .runEnd 0, .handlerCall 0 none (some (jsIndex d 0)),
        .handlerCall 0 (some e1) none] ++ (chainExecAux runner 1 rest none).1,
        (chainExecAux runner 1 rest none).2) := by
  have hstep : chainStep runner 0 t =
      ([.runStart 0, .runEnd 0, .handlerCall 0 none (some (jsIndex d 0)),
        .handlerCall 0 (some e1) none], none) := by
    unfold chainStep handlerPhase
    simp [hrun, hthrow, hsecond]
  simp [chainExec, chainExecAux, hstep]

/-- Task for the C10 witness: handler throws on the success invocation only. -/
def c10Partial : AsyncHandlerTask :=
  ⟨["c"], .undefined, none,
    fun e _ => match e with | none => .error "thrown" | some _ => .ok ()⟩

/-- C10 witness: the amended statement at a concrete chain — the handler is
re-invoked with the thrown `"thrown"` exception, and the benign next step
still runs (its events follow in the trace). -/
theorem claim10_witness :
    processOutcome c10Runner (.one c10Partial.toTask) [0] = .ok (.varr [.vstr "data"]) ∧
    c10Partial.handler none (some (jsIndex (.varr [.vstr "data"]) 0)) = .error "thrown" ∧
    c10Partial.handler (some "thrown") none = .ok () ∧
    chainExec c10Runner [c10Partial, c10Next] =
      ([.runStart 0, .runEnd 0, .handlerCall 0 none (some (jsIndex (.varr [.vstr "data"]) 0)),
        .handlerCall 0 (some "thrown") none] ++ (chainExecAux c10Runner 1 [c10Next] none).1,
        (chainExecAux c10Runner 1 [c10Next] none).2) :=
  ⟨rfl, rfl, rfl,
    claim10_amended c10Runner c10Partial [c10Next] (.varr [.vstr "data"]) "thrown"
      rfl rfl rfl⟩

/-! ### C6: handler presence is the sole routing discriminator -/

theorem dispatch_routes (t : Task) : routesByHandler (dispatch t) t := by
  rcases t with ⟨c, o, p, h⟩
  rcases h with _ | h <;> rfl

/-- C6: for every public operation (`clone`, `mirror`, `status`, `stash`,
`stashList`) and any call arguments, if the built Task carries a handler
function the operation passes it to the Chain Sequencer (returning the
Dispatcher itself for further chaining), and if it carries no handler the
operation passes it, alone, to the Task Queue Executor (returning the
Future); the presence of the handler is the sole discriminator
(`routesByHandler` matches on nothing else). -/
theorem claim6_routing (args : List JsArg) (repoPath localPath : String) :
    routesByHandler (SimpleGit.clone args) (cloneTaskOf args) ∧
    routesByHandler (SimpleGit.status args) (statusTaskOf args) ∧
    routesByHandler (SimpleGit.stash args) (stashTaskOf args) ∧
    routesByHandler (SimpleGit.stashList args) (stashListTaskOf args) ∧
    routesByHandler (SimpleGit.mirror repoPath localPath args)
      (cloneTaskOf (.str repoPath :: .str localPath :: .arr ["--mirror"] :: args)) :=
  ⟨dispatch_routes _, dispatch_routes _, dispatch_routes _, dispatch_routes _,
    dispatch_routes _⟩

/-! ### C9: mirror delegates to clone -/

/-- The spec's §4.3 description of `mirror` (the second definition required
for this refinement claim): delegate to `clone` with an injected
`'--mirror'` flag argument, no independent logic. -/
def mirrorSpec (repoPath localPath : String) (args : List JsArg) : Route :=
  SimpleGit.clone (.str repoPath :: .str localPath :: .arr ["--mirror"] :: args)

/-- C9: for all `repoPath`, `localPath` and trailing arguments,
`mirror(repoPath, localPath, ...args)` behaves identically to
`clone(repoPath, localPath, ['--mirror'], ...args)`: the source `mirror`
coincides with the spec-side delegation `mirrorSpec` and returns exactly
what that `clone` call returns (same routing, same value, same built Task)
— no independent logic; with no further trailing arguments the resulting
Task command is the plain clone command with the `--mirror` flag
injected. -/
theorem claim9_mirror (repoPath localPath : String) (args : List JsArg) :
    SimpleGit.mirror repoPath localPath args = mirrorSpec repoPath localPath args ∧
    SimpleGit.mirror repoPath localPath args =
      SimpleGit.clone (.str repoPath :: .str localPath :: .arr ["--mirror"] :: args) ∧
    (cloneTaskOf [.str repoPath, .str localPath, .arr ["--mirror"]]).command =
      ["clone", "--mirror", repoPath, localPath] :=
  ⟨rfl, rfl, rfl⟩

end GitJS
